import Mathlib

/-!
Verification of the Tanya Mail retrieval-augmented answering pipeline.

Shallow embedding of the core data model and operations:
- conversation memory (ConversationManager.add_exchange, api_langchain.py)
- the document store of chunks and the ingestion / deletion operations
  (process_single_pdf in bulk_pdf_processor.py, process_pdf_file and
  delete_file in api_langchain.py)
- the hybrid retriever (MongoDocumentRetriever in langchain_rag.py,
  get_enhanced_documents in simple_langchain.py)
- the answer engine and its streaming event protocol
  (SimpleLangChainRAG.ask_question / ask_question_streaming,
  ask_question and ask_question_legacy generators in api_langchain.py)
- session management endpoints (history read / clear / export).
-/

namespace TanyaMail

/-- One question/answer exchange stored in conversation history. -/
structure Exchange where
  question : String
  answer : String
  sources : List String
deriving DecidableEq, Repr

/-- Hard cap on legacy conversation history (MAX_CONVERSATION_HISTORY = 10). -/
def MAX_CONVERSATION_HISTORY : Nat := 10

/-- Python list slice `l[-m:]`: the last `m` elements, except that `l[-0:]`
is the whole list. -/
def pyTailSlice (m : Nat) (l : List α) : List α :=
  if m = 0 then l else l.drop (l.length - m)

/-- ConversationManager.add_exchange: append the exchange, then if the length
exceeds `max_history`, keep `self.conversation_history[-self.max_history:]`. -/
def addExchange (history : List Exchange) (ex : Exchange) (maxHistory : Nat) : List Exchange :=
  let h := history ++ [ex]
  if maxHistory < h.length then pyTailSlice maxHistory h else h

theorem pyTailSlice_pos (m : Nat) (l : List α) (h : 1 ≤ m) :
    pyTailSlice m l = l.drop (l.length - m) := by
  unfold pyTailSlice
  rw [if_neg (by omega)]

/-- After an append the history length never exceeds the cap (cap ≥ 1). -/
theorem addExchange_length_le (history : List Exchange) (ex : Exchange) (maxHistory : Nat)
    (h1 : 1 ≤ maxHistory) :
    (addExchange history ex maxHistory).length ≤ maxHistory := by
  unfold addExchange pyTailSlice
  by_cases hlt : maxHistory < (history ++ [ex]).length
  · rw [if_pos hlt, if_neg (by omega)]
    simp only [List.length_drop]
    omega
  · rw [if_neg hlt]
    omega

/-- Appending to a full history drops exactly the oldest exchange. -/
theorem addExchange_full (history : List Exchange) (ex : Exchange) (maxHistory : Nat)
    (h1 : 1 ≤ maxHistory) (hfull : history.length = maxHistory) :
    addExchange history ex maxHistory = history.drop 1 ++ [ex] := by
  unfold addExchange pyTailSlice
  have hlt : maxHistory < (history ++ [ex]).length := by
    simp [List.length_append, hfull]
  rw [if_pos hlt, if_neg (by omega)]
  have hone : (history ++ [ex]).length - maxHistory = 1 := by
    simp [List.length_append, hfull]
  rw [hone, List.drop_append_of_le_length (by omega)]

/-- The newest exchange is always the last element after an append (cap ≥ 1). -/
theorem addExchange_getLast (history : List Exchange) (ex : Exchange) (maxHistory : Nat)
    (h1 : 1 ≤ maxHistory) :
    (addExchange history ex maxHistory).getLast? = some ex := by
  unfold addExchange pyTailSlice
  by_cases hlt : maxHistory < (history ++ [ex]).length
  · rw [if_pos hlt, if_neg (by omega)]
    rw [List.drop_append_of_le_length (by simp [List.length_append] at hlt ⊢; omega)]
    simp
  · rw [if_neg hlt]
    simp

/-- Claim C5: after each append the legacy conversation history holds at most
the hard cap of exchanges (10 by default); appending to a history already at
the cap leaves exactly the cap many exchanges, with the oldest evicted first
and the relative order of the survivors unchanged. -/
theorem c5_memory_bounded (history : List Exchange) (ex : Exchange) (maxHistory : Nat)
    (h1 : 1 ≤ maxHistory) :
    MAX_CONVERSATION_HISTORY = 10 ∧
    (addExchange history ex maxHistory).length ≤ maxHistory ∧
    (history.length = maxHistory →
      addExchange history ex maxHistory = history.drop 1 ++ [ex]) :=
  ⟨rfl, addExchange_length_le history ex maxHistory h1,
   fun hfull => addExchange_full history ex maxHistory h1 hfull⟩

/-- A concrete 10-exchange history used to instantiate the bounded-memory claim. -/
def sampleHistory : List Exchange :=
  (List.range 10).map (fun i => ⟨"q" ++ toString i, "a" ++ toString i, []⟩)

/-- Witness for c5_memory_bounded at the default hard cap of 10 with a full
history of 10 exchanges. -/
theorem c5_memory_bounded_witness :
    MAX_CONVERSATION_HISTORY = 10 ∧
    (addExchange sampleHistory ⟨"q", "a", []⟩ 10).length ≤ 10 ∧
    (sampleHistory.length = 10 →
      addExchange sampleHistory ⟨"q", "a", []⟩ 10 = sampleHistory.drop 1 ++ [⟨"q", "a", []⟩]) :=
  c5_memory_bounded sampleHistory ⟨"q", "a", []⟩ 10 (by decide)

/-! ## Document store: chunks, ingestion, deletion -/

/-- One stored chunk record (the MongoDB document built during ingestion). -/
structure Chunk where
  doc_id : String
  filename : String
  file_hash : String
  chunk_id : Nat
deriving DecidableEq, Repr

/-- is_pdf_processed (bulk_pdf_processor.py) / the dedup check in
process_pdf_file (api_langchain.py): a record matching both `filename` and
`file_hash` exists. -/
def isPdfProcessed (store : List Chunk) (filename fileHash : String) : Bool :=
  store.any (fun c => c.filename = filename && c.file_hash = fileHash)

/-- The chunk records inserted when a file with the given (new) hash is split
into `n` chunks: doc_id is `filename + "_chunk_" + i`. -/
def mkChunks (filename fileHash : String) (n : Nat) : List Chunk :=
  (List.range n).map (fun i => ⟨filename ++ "_chunk_" ++ toString i, filename, fileHash, i⟩)

/-- process_single_pdf (bulk_pdf_processor.py): `file_hash` is the hash of the
current file content. The purge before reinsertion runs only when a record
with the *current* hash exists and force is set, and deletes only records
matching the current hash. -/
def processSinglePdf (store : List Chunk) (filename fileHash : String)
    (numChunks : Nat) (force : Bool) : List Chunk :=
  let processed := isPdfProcessed store filename fileHash
  if processed && !force then store
  else
    let purged :=
      if processed && force then
        store.filter (fun c => !(c.filename = filename && c.file_hash = fileHash))
      else store
    purged ++ mkChunks filename fileHash numChunks

/-- process_pdf_file (api_langchain.py): skip when (filename, hash) already
present, otherwise insert the new chunks; no purge is ever performed. -/
def processPdfFile (store : List Chunk) (filename fileHash : String)
    (numChunks : Nat) : List Chunk :=
  if isPdfProcessed store filename fileHash then store
  else store ++ mkChunks filename fileHash numChunks

/-- A store already holding the two chunks of "a.pdf" under its old hash h1. -/
def c2Store : List Chunk := mkChunks "a.pdf" "h1" 2

/-- Claim C2 (code bug): reprocessing "a.pdf" whose content changed (hash h2)
with force set does NOT purge the old h1 chunks: the dedup lookup uses the new
hash, finds nothing, so the purge branch is skipped and the old chunks remain;
the store afterwards even holds two records with the same doc_id
"a.pdf_chunk_0". The api_langchain ingestion path behaves the same way. -/
theorem c2_force_reprocess_keeps_old_chunks :
    processSinglePdf c2Store "a.pdf" "h2" 2 true = c2Store ++ mkChunks "a.pdf" "h2" 2 ∧
    (processSinglePdf c2Store "a.pdf" "h2" 2 true).any
      (fun c => c.filename = "a.pdf" && c.file_hash = "h1") = true ∧
    ((processSinglePdf c2Store "a.pdf" "h2" 2 true).filter
      (fun c => c.doc_id = "a.pdf_chunk_0")).length = 2 ∧
    processPdfFile c2Store "a.pdf" "h2" 2 = c2Store ++ mkChunks "a.pdf" "h2" 2 := by
  refine ⟨rfl, rfl, rfl, rfl⟩

/-- HTTP error surfaced to a caller: status code and detail message. -/
structure HTTPError where
  status : Nat
  detail : String
deriving DecidableEq, Repr

/-- collection.delete_many({"filename": filename}): remaining store and
deleted count. Deletion matches on filename only, regardless of file_hash. -/
def deleteManyByFilename (store : List Chunk) (filename : String) : List Chunk × Nat :=
  (store.filter (fun c => !(c.filename = filename)),
   (store.filter (fun c => c.filename = filename)).length)

/-- Body of the delete_file endpoint try-block (api_langchain.py): delete all
chunks of the filename; raise HTTPException 404 when nothing was deleted. -/
def deleteFileInner (store : List Chunk) (filename : String) :
    List Chunk × Except HTTPError Nat :=
  let p := deleteManyByFilename store filename
  if 0 < p.2 then (p.1, Except.ok p.2)
  else (p.1, Except.error ⟨404, "File " ++ filename ++ " not found"⟩)

/-- delete_file endpoint: its blanket `except Exception` also catches the
HTTPException(404) raised inside the try-block and rewraps it as a 500. -/
def deleteFileEndpoint (store : List Chunk) (filename : String) :
    List Chunk × Except HTTPError Nat :=
  let p := deleteFileInner store filename
  match p.2 with
  | Except.ok n => (p.1, Except.ok n)
  | Except.error e =>
      (p.1, Except.error ⟨500, "Failed to delete file: " ++ toString e.status ++ ": " ++ e.detail⟩)

/-- A store with 5 chunks of "a.pdf" under two different hashes plus one chunk
of "b.pdf". -/
def c9Store : List Chunk :=
  mkChunks "a.pdf" "h1" 3 ++ mkChunks "a.pdf" "h2" 2 ++ mkChunks "b.pdf" "h3" 1

/-- Claim C9 (code bug): deleting "a.pdf" removes all 5 of its chunks
regardless of hash and reports deleted count 5; but deleting an unknown
filename surfaces HTTP 500 (the endpoint's own except-clause rewraps the
HTTPException 404 it raised), not a not-found condition. -/
theorem c9_delete_file_behavior :
    (deleteFileEndpoint c9Store "a.pdf").2 = Except.ok 5 ∧
    (deleteFileEndpoint c9Store "a.pdf").1 = mkChunks "b.pdf" "h3" 1 ∧
    (deleteFileEndpoint c9Store "missing.pdf").2 =
      Except.error ⟨500, "Failed to delete file: 404: File missing.pdf not found"⟩ ∧
    (deleteFileEndpoint c9Store "missing.pdf").1 = c9Store := by
  refine ⟨rfl, rfl, rfl, rfl⟩

/-! ## Hybrid retriever: vector index results enriched from the store -/

/-- One ranked result coming back from the vector index (ChromaDB document):
page content plus the metadata fields the code reads. -/
structure ChromaDoc where
  pageContent : String
  docId : Option String
  filename : String
deriving DecidableEq, Repr

/-- An enriched context document: vector index content merged with the
authoritative store metadata. -/
structure EnrichedDoc where
  content : String
  docId : Option String
  filename : String
  file_hash : String
  chunk_id : Nat
deriving DecidableEq, Repr

/-- mongo_collection.find_one({"doc_id": doc_id}). -/
def findOneByDocId (store : List Chunk) (id : String) : Option Chunk :=
  store.find? (fun c => c.doc_id = id)

/-- Merge one vector index result with its store record. -/
def mergeDoc (d : ChromaDoc) (m : Chunk) : EnrichedDoc :=
  ⟨d.pageContent, d.docId, d.filename, m.file_hash, m.chunk_id⟩

/-- The enrichment loop shared by MongoDocumentRetriever._get_relevant_documents
(langchain_rag.py) and SimpleLangChainRAG.get_enhanced_documents
(simple_langchain.py): results without a doc_id or without a store record are
dropped; the others are merged with their store record, in order. -/
def enrichDocs (store : List Chunk) : List ChromaDoc → List EnrichedDoc
  | [] => []
  | d :: ds =>
    match d.docId with
    | none => enrichDocs store ds
    | some id =>
      match findOneByDocId store id with
      | none => enrichDocs store ds
      | some m => mergeDoc d m :: enrichDocs store ds

/-- MongoDocumentRetriever._get_relevant_documents: enrich the vector index
results, then return `enhanced_docs[:self._top_k]`. `chromaResults` is the
ranked list produced by the wrapped chroma retriever for the query. -/
def getRelevantDocuments (store : List Chunk) (chromaResults : List ChromaDoc)
    (topK : Nat) : List EnrichedDoc :=
  (enrichDocs store chromaResults).take topK

/-- Modelled from the spec (section 4.4 Hybrid Retriever), for comparison with
the code: keep exactly the ranked results whose doc_id is found in the store,
each merged with its store record, in rank order, truncated to top-k. -/
def hybridRetrieveSpec (store : List Chunk) (chromaResults : List ChromaDoc)
    (topK : Nat) : List EnrichedDoc :=
  (chromaResults.filterMap
    (fun d => d.docId.bind (fun id => (findOneByDocId store id).map (mergeDoc d)))).take topK

theorem enrichDocs_eq_filterMap (store : List Chunk) (l : List ChromaDoc) :
    enrichDocs store l =
      l.filterMap (fun d => d.docId.bind (fun id => (findOneByDocId store id).map (mergeDoc d))) := by
  induction l with
  | nil => rfl
  | cons d ds ih =>
    cases hid : d.docId with
    | none => simp [enrichDocs, hid, List.filterMap_cons, ih]
    | some id =>
      cases hfind : findOneByDocId store id with
      | none => simp [enrichDocs, hid, hfind, List.filterMap_cons, ih]
      | some m => simp [enrichDocs, hid, hfind, List.filterMap_cons, ih]

theorem enrichDocs_map_content_sublist (store : List Chunk) (l : List ChromaDoc) :
    ((enrichDocs store l).map EnrichedDoc.content).Sublist (l.map ChromaDoc.pageContent) := by
  induction l with
  | nil => simp [enrichDocs]
  | cons d ds ih =>
    cases hid : d.docId with
    | none => exact (by simpa [enrichDocs, hid] using ih.cons d.pageContent)
    | some id =>
      cases hfind : findOneByDocId store id with
      | none => exact (by simpa [enrichDocs, hid, hfind] using ih.cons d.pageContent)
      | some m =>
        simp only [enrichDocs, hid, hfind, List.map_cons, mergeDoc]
        exact ih.cons₂ d.pageContent

theorem enrichDocs_length_le (store : List Chunk) (l : List ChromaDoc) :
    (enrichDocs store l).length ≤ l.length := by
  induction l with
  | nil => simp [enrichDocs]
  | cons d ds ih =>
    cases hid : d.docId with
    | none => simp only [enrichDocs, hid, List.length_cons]; omega
    | some id =>
      cases hfind : findOneByDocId store id with
      | none => simp only [enrichDocs, hid, hfind, List.length_cons]; omega
      | some m => simp only [enrichDocs, hid, hfind, List.length_cons]; omega

/-- Claim C7: the hybrid retriever output equals the spec-side description
(surviving results enriched, rank order preserved, truncated to top-k), its
length is at most top-k, and its contents form a subsequence of the vector
index's ranked contents. -/
theorem c7_hybrid_retriever (store : List Chunk) (chromaResults : List ChromaDoc)
    (topK : Nat) :
    getRelevantDocuments store chromaResults topK = hybridRetrieveSpec store chromaResults topK ∧
    (getRelevantDocuments store chromaResults topK).length ≤ topK ∧
    ((getRelevantDocuments store chromaResults topK).map EnrichedDoc.content).Sublist
      (chromaResults.map ChromaDoc.pageContent) := by
  refine ⟨?_, ?_, ?_⟩
  · unfold getRelevantDocuments hybridRetrieveSpec
    rw [enrichDocs_eq_filterMap]
  · unfold getRelevantDocuments
    exact List.length_take_le topK (enrichDocs store chromaResults)
  · unfold getRelevantDocuments
    have h1 : ((enrichDocs store chromaResults).take topK).map EnrichedDoc.content
        = ((enrichDocs store chromaResults).map EnrichedDoc.content).take topK := by
      rw [List.map_take]
    rw [h1]
    exact (List.take_sublist _ _).trans (enrichDocs_map_content_sublist store chromaResults)

/-! ## top_k handling on the /ask endpoint -/

/-- search_similar_documents (api_langchain.py, legacy path):
chroma.similarity_search(query, k=top_k) over the ranked index results. -/
def searchSimilarDocuments (ranked : List ChromaDoc) (topK : Nat) : List ChromaDoc :=
  ranked.take topK

/-- SimpleLangChainRAG.search_documents: similarity_search(query, k=k). -/
def searchDocuments (ranked : List ChromaDoc) (k : Nat) : List ChromaDoc :=
  ranked.take k

/-- SimpleLangChainRAG.get_enhanced_documents: search then enrich from the
store, dropping results without a store record. -/
def getEnhancedDocuments (store : List Chunk) (ranked : List ChromaDoc)
    (k : Nat) : List EnrichedDoc :=
  enrichDocs store (searchDocuments ranked k)

/-- Number of retrieved context documents used by the /ask endpoint for a
request with the given top_k. The LangChain branch calls
SimpleLangChainRAG.ask_question, which retrieves with the hard-coded k = 5 and
never reads request.top_k; the legacy branch passes top_k to the search. -/
def askRetrievedCount (useLangchain : Bool) (topK : Nat)
    (ranked : List ChromaDoc) (store : List Chunk) : Nat :=
  if useLangchain then (getEnhancedDocuments store ranked 5).length
  else (searchSimilarDocuments ranked topK).length

/-- Five ranked index results d0..d4 for some query. -/
def c6Ranked : List ChromaDoc :=
  (List.range 5).map (fun i => ⟨"text" ++ toString i, some ("d" ++ toString i), "f.pdf"⟩)

/-- A store holding the matching records d0..d4. -/
def c6Store : List Chunk :=
  (List.range 5).map (fun i => ⟨"d" ++ toString i, "f.pdf", "h", i⟩)

/-- Claim C6 counterexample: a request with top_k = 3 on the (default)
LangChain branch uses 5 retrieved context documents, not at most 3 — the
LangChain path ignores top_k and retrieves with k = 5. -/
theorem c6_counterexample :
    askRetrievedCount true 3 c6Ranked c6Store = 5 ∧
    ¬ askRetrievedCount true 3 c6Ranked c6Store ≤ 3 := by
  refine ⟨rfl, by decide⟩

/-- Claim C6 (amended): the legacy branch retrieves at most top_k context
documents; the LangChain branch ignores top_k entirely — its retrieval count
is independent of top_k and bounded by the hard-coded 5. -/
theorem c6_amended (topK topK' : Nat) (ranked : List ChromaDoc) (store : List Chunk) :
    askRetrievedCount false topK ranked store ≤ topK ∧
    askRetrievedCount true topK ranked store ≤ 5 ∧
    askRetrievedCount true topK ranked store = askRetrievedCount true topK' ranked store := by
  refine ⟨?_, ?_, rfl⟩
  · simp only [askRetrievedCount, if_neg (Bool.false_ne_true), searchSimilarDocuments]
    exact List.length_take_le topK ranked
  · simp only [askRetrievedCount, if_pos rfl, getEnhancedDocuments, searchDocuments]
    exact (enrichDocs_length_le store (ranked.take 5)).trans (List.length_take_le 5 ranked)

/-! ## Answer engine (SimpleLangChainRAG.ask_question / ask_question_streaming) -/

/-- The fixed no-relevant-documents answer. -/
def noDocsAnswer : String := "Tidak ada dokumen relevan ditemukan untuk pertanyaan Anda."

/-- `sources = set(); for doc: sources.add(filename); list(sources)` —
the distinct filenames of the enriched context documents. -/
def sourcesOfDocs (docs : List EnrichedDoc) : List String :=
  (docs.map EnrichedDoc.filename).dedup

/-- memory.save_context({"input": question}, {"output": answer}) on the
per-session ConversationBufferWindowMemory: appends the exchange to the
unbounded chat_memory buffer (no source list is stored). -/
def saveContext (mem : List Exchange) (q a : String) : List Exchange :=
  mem ++ [⟨q, a, []⟩]

/-- SimpleLangChainRAG.ask_question: `docs` are the enriched documents the
retrieval produced, `mem` the session's memory, `llm` the outcome of the
model invocation. Returns (answer, sources) or the wrapped failure, paired
with the session memory afterwards. -/
def ragAskQuestion (docs : List EnrichedDoc) (mem : List Exchange) (question : String)
    (llm : Except String String) :
    Except String (String × List String) × List Exchange :=
  if docs.isEmpty then (Except.ok (noDocsAnswer, []), mem)
  else
    match llm with
    | Except.error e => (Except.error ("Question processing failed: " ++ e), mem)
    | Except.ok ans => (Except.ok (ans, sourcesOfDocs docs), saveContext mem question ans)

/-- SimpleLangChainRAG.ask_question_streaming: `toks` are the fragments the
model streamed before either finishing (failure = none) or raising
(failure = some e, in which case the exception is re-raised and the memory
write is never reached). -/
def askQuestionStreaming (docs : List EnrichedDoc) (mem : List Exchange) (question : String)
    (toks : List String) (failure : Option String) :
    Except String (String × List String) × List Exchange :=
  if docs.isEmpty then (Except.ok (noDocsAnswer, []), mem)
  else
    match failure with
    | some e => (Except.error e, mem)
    | none =>
        (Except.ok (String.join toks, sourcesOfDocs docs),
         saveContext mem question (String.join toks))

/-- Claim C3 counterexample: a question whose retrieval returns zero documents
gets the fixed answer and empty sources from SimpleLangChainRAG.ask_question,
but the exchange is NOT appended to the session memory — the function returns
before the memory write, leaving the memory empty. -/
theorem c3_counterexample :
    ragAskQuestion [] [] "q" (Except.ok "unused") = (Except.ok (noDocsAnswer, []), []) ∧
    (ragAskQuestion [] [] "q" (Except.ok "unused")).2 ≠ [⟨"q", noDocsAnswer, []⟩] := by
  refine ⟨rfl, by decide⟩

/-- Legacy zero-results branch of ask_question_legacy (api_langchain.py):
fixed answer, empty sources, and the exchange IS appended via add_exchange. -/
def legacyZeroResults (mem : List Exchange) (q : String) :
    (String × List String) × List Exchange :=
  ((noDocsAnswer, []), addExchange mem ⟨q, noDocsAnswer, []⟩ MAX_CONVERSATION_HISTORY)

/-- Claim C3 (amended): on zero retrieval results both paths return the fixed
no-relevant-documents answer with an empty source list; the legacy path still
appends the exchange to conversation memory, but the LangChain path
(SimpleLangChainRAG.ask_question) leaves the session memory unmodified. -/
theorem c3_amended (mem : List Exchange) (q : String) (llm : Except String String) :
    ragAskQuestion [] mem q llm = (Except.ok (noDocsAnswer, []), mem) ∧
    (legacyZeroResults mem q).1 = (noDocsAnswer, []) ∧
    (legacyZeroResults mem q).2.getLast? = some ⟨q, noDocsAnswer, []⟩ := by
  refine ⟨rfl, rfl, ?_⟩
  exact addExchange_getLast mem ⟨q, noDocsAnswer, []⟩ MAX_CONVERSATION_HISTORY (by decide)

/-! ## Streaming event protocol -/

/-- One server-sent event of the streaming answer protocol. -/
inductive SSEEvent where
  | session (sid : String)
  | content (token : String)
  | source (sources : List String)
  | error (msg : String)
  | done
deriving DecidableEq, Repr

def SSEEvent.isSession : SSEEvent → Bool
  | .session _ => true
  | _ => false

def SSEEvent.isContent : SSEEvent → Bool
  | .content _ => true
  | _ => false

def SSEEvent.isSource : SSEEvent → Bool
  | .source _ => true
  | _ => false

def SSEEvent.isError : SSEEvent → Bool
  | .error _ => true
  | _ => false

def SSEEvent.isDone : SSEEvent → Bool
  | .done => true
  | _ => false

/-- A terminal event is done or error. -/
def SSEEvent.isTerminal (e : SSEEvent) : Bool := e.isError || e.isDone

/-- Number of events satisfying a predicate. -/
def countEvents (p : SSEEvent → Bool) : List SSEEvent → Nat
  | [] => 0
  | e :: rest => (if p e then 1 else 0) + countEvents p rest

/-- Some event satisfying `p` is strictly followed by some event satisfying `q`. -/
def eventAfter (p q : SSEEvent → Bool) : List SSEEvent → Bool
  | [] => false
  | e :: rest => (p e && rest.any q) || eventAfter p q rest

/-- The API-side token loop of the /ask LangChain streaming generator: each
queued token becomes a content event, except that a token starting with
"Error:" becomes an error event and breaks the loop. -/
def processTokens : List String → List SSEEvent
  | [] => []
  | t :: ts =>
    if ("Error:".toList).isPrefixOf t.toList then [SSEEvent.error t]
    else SSEEvent.content t :: processTokens ts

/-- The content events of the legacy streaming loop (one per model fragment). -/
def contentEvents (toks : List String) : List SSEEvent :=
  toks.map SSEEvent.content

/-- `if sources: yield source` — at most one source event. -/
def sourceEvents (srcs : List String) : List SSEEvent :=
  if srcs.isEmpty then [] else [SSEEvent.source srcs]

/-- After the token loop the /ask LangChain generator awaits the response
task: a source event on success with nonempty sources, an error event when
the task raised. -/
def taskEvents : Except String (List String) → List SSEEvent
  | Except.ok srcs => sourceEvents srcs
  | Except.error e => [SSEEvent.error e]

/-- The event sequence emitted by the /ask LangChain streaming generator
(ask_question.generate, api_langchain.py): session first, then the token
loop, then the task result, then an unconditional done event. -/
def langchainGenerate (sid : String) (toks : List String)
    (task : Except String (List String)) : List SSEEvent :=
  SSEEvent.session sid :: (processTokens toks ++ taskEvents task ++ [SSEEvent.done])

/-- Result of one run of the legacy streaming generator: the emitted events
and the session memory afterwards. -/
structure StreamRun where
  events : List SSEEvent
  memory : List Exchange
deriving Repr

/-- The legacy streaming generator (ask_question_legacy.generate,
api_langchain.py): session event, content events for the fragments streamed
before a possible failure; on failure a single error event ends the stream
and the memory write is never reached; on success the source event (if any
sources), the memory write of the original question, and the done event. -/
def legacyStreamGenerate (sid question : String) (mem : List Exchange)
    (toks : List String) (failure : Option String) (srcs : List String) : StreamRun :=
  match failure with
  | some e =>
      ⟨SSEEvent.session sid :: (contentEvents toks ++ [SSEEvent.error e]), mem⟩
  | none =>
      ⟨SSEEvent.session sid :: (contentEvents toks ++ sourceEvents srcs ++ [SSEEvent.done]),
       addExchange mem ⟨question, String.join toks, srcs⟩ MAX_CONVERSATION_HISTORY⟩

theorem countEvents_append (p : SSEEvent → Bool) (l₁ l₂ : List SSEEvent) :
    countEvents p (l₁ ++ l₂) = countEvents p l₁ + countEvents p l₂ := by
  induction l₁ with
  | nil => simp [countEvents]
  | cons e l ih =>
    simp only [List.cons_append, countEvents]
    rw [List.append_eq, ih]
    omega

theorem countEvents_contentEvents (p : SSEEvent → Bool)
    (h : ∀ t, p (SSEEvent.content t) = false) (toks : List String) :
    countEvents p (contentEvents toks) = 0 := by
  induction toks with
  | nil => rfl
  | cons t ts ih => simp [contentEvents, countEvents, h t] at ih ⊢; exact ih

theorem countEvents_processTokens (p : SSEEvent → Bool)
    (h1 : ∀ t, p (SSEEvent.content t) = false)
    (h2 : ∀ t, p (SSEEvent.error t) = false) (toks : List String) :
    countEvents p (processTokens toks) = 0 := by
  induction toks with
  | nil => rfl
  | cons t ts ih =>
    simp only [processTokens]
    by_cases herr : ("Error:".toList).isPrefixOf t.toList
    · rw [if_pos herr]; simp [countEvents, h2 t]
    · rw [if_neg herr]; simp [countEvents, h1 t, ih]

theorem countEvents_sourceEvents (p : SSEEvent → Bool)
    (h : ∀ s, p (SSEEvent.source s) = false) (srcs : List String) :
    countEvents p (sourceEvents srcs) = 0 := by
  unfold sourceEvents
  by_cases hs : srcs.isEmpty <;> simp [hs, countEvents, h srcs]

theorem countEvents_taskEvents (p : SSEEvent → Bool)
    (h1 : ∀ s, p (SSEEvent.source s) = false)
    (h2 : ∀ m, p (SSEEvent.error m) = false) (task : Except String (List String)) :
    countEvents p (taskEvents task) = 0 := by
  cases task with
  | ok srcs => exact countEvents_sourceEvents p h1 srcs
  | error e => simp [taskEvents, countEvents, h2 e]

theorem getLast?_append_singleton (x : α) : ∀ (l : List α), (l ++ [x]).getLast? = some x
  | [] => rfl
  | [a] => rfl
  | a :: b :: l => by
    rw [List.cons_append, List.cons_append, List.getLast?_cons_cons, ← List.cons_append]
    exact getLast?_append_singleton x (b :: l)

theorem eventAfter_false_last (p q : SSEEvent → Bool) (x : SSEEvent) :
    ∀ (l : List SSEEvent), (∀ e ∈ l, p e = false) → eventAfter p q (l ++ [x]) = false
  | [], _ => by simp [eventAfter]
  | e :: l, h => by
    have he : p e = false := h e (List.mem_cons_self e l)
    simp only [List.cons_append, eventAfter, he, Bool.false_and, Bool.false_or]
    exact eventAfter_false_last p q x l (fun e' he' => h e' (List.mem_cons_of_mem e he'))

theorem notError_session_content (sid : String) (toks : List String) :
    ∀ e ∈ SSEEvent.session sid :: contentEvents toks, e.isError = false := by
  intro e he
  rcases List.mem_cons.mp he with h | h
  · subst h; rfl
  · rcases List.mem_map.mp h with ⟨t, _, rfl⟩; rfl

theorem notError_session_content_source (sid : String) (toks srcs : List String) :
    ∀ e ∈ SSEEvent.session sid :: (contentEvents toks ++ sourceEvents srcs),
      e.isError = false := by
  intro e he
  rcases List.mem_cons.mp he with h | h
  · subst h; rfl
  · rcases List.mem_append.mp h with h2 | h2
    · rcases List.mem_map.mp h2 with ⟨t, _, rfl⟩; rfl
    · unfold sourceEvents at h2
      split at h2
      · simp at h2
      · simp at h2; subst h2; rfl

/-- Claim C1 counterexample: in the /ask LangChain streaming generator an
error event can be followed by further events — for an in-stream error token
with a failing response task, the run emits session, error, error, done: a
done event after an error event and three terminal events in one stream. -/
theorem c1_counterexample :
    langchainGenerate "s" ["Error: boom"] (Except.error "boom") =
      [SSEEvent.session "s", SSEEvent.error "Error: boom",
       SSEEvent.error "boom", SSEEvent.done] ∧
    eventAfter SSEEvent.isError SSEEvent.isDone
      (langchainGenerate "s" ["Error: boom"] (Except.error "boom")) = true ∧
    countEvents SSEEvent.isTerminal
      (langchainGenerate "s" ["Error: boom"] (Except.error "boom")) = 3 := by
  refine ⟨rfl, rfl, rfl⟩

/-- Claim C1 (amended): every streaming run emits exactly one session event
and emits it first (hence before any content event). The legacy streaming
generator moreover emits exactly one terminal event, as its last event, and
never emits a done or source event after an error. The LangChain streaming
generator instead always ends with a done event (its token-loop and task
errors are followed by the unconditional done, so an error is not terminal
there). -/
theorem c1_amended_streaming_protocol (sid question : String) (mem : List Exchange)
    (toks ltoks : List String) (failure : Option String) (srcs : List String)
    (task : Except String (List String)) :
    (countEvents SSEEvent.isSession (legacyStreamGenerate sid question mem toks failure srcs).events = 1 ∧
     (legacyStreamGenerate sid question mem toks failure srcs).events.head? =
       some (SSEEvent.session sid) ∧
     countEvents SSEEvent.isTerminal (legacyStreamGenerate sid question mem toks failure srcs).events = 1 ∧
     ((legacyStreamGenerate sid question mem toks failure srcs).events.getLast?).map SSEEvent.isTerminal =
       some true ∧
     eventAfter SSEEvent.isError (fun e => e.isDone || e.isSource)
       (legacyStreamGenerate sid question mem toks failure srcs).events = false) ∧
    (countEvents SSEEvent.isSession (langchainGenerate sid ltoks task) = 1 ∧
     (langchainGenerate sid ltoks task).head? = some (SSEEvent.session sid) ∧
     countEvents SSEEvent.isDone (langchainGenerate sid ltoks task) = 1 ∧
     (langchainGenerate sid ltoks task).getLast? = some SSEEvent.done) := by
  constructor
  · cases failure with
    | some e =>
      simp only [legacyStreamGenerate]
      refine ⟨?_, rfl, ?_, ?_, ?_⟩
      · simp only [countEvents, countEvents_append,
          countEvents_contentEvents SSEEvent.isSession (fun _ => rfl) toks]
        rfl
      · simp only [countEvents, countEvents_append,
          countEvents_contentEvents SSEEvent.isTerminal (fun _ => rfl) toks]
        rfl
      · rw [← List.cons_append, getLast?_append_singleton]
        rfl
      · rw [← List.cons_append]
        exact eventAfter_false_last _ _ _ _ (notError_session_content sid toks)
    | none =>
      simp only [legacyStreamGenerate]
      refine ⟨?_, rfl, ?_, ?_, ?_⟩
      · simp only [countEvents, countEvents_append,
          countEvents_contentEvents SSEEvent.isSession (fun _ => rfl) toks,
          countEvents_sourceEvents SSEEvent.isSession (fun _ => rfl) srcs]
        rfl
      · simp only [countEvents, countEvents_append,
          countEvents_contentEvents SSEEvent.isTerminal (fun _ => rfl) toks,
          countEvents_sourceEvents SSEEvent.isTerminal (fun _ => rfl) srcs]
        rfl
      · rw [← List.cons_append, getLast?_append_singleton]
        rfl
      · rw [← List.cons_append]
        exact eventAfter_false_last _ _ _ _ (notError_session_content_source sid toks srcs)
  · simp only [langchainGenerate]
    refine ⟨?_, rfl, ?_, ?_⟩
    · simp only [countEvents, countEvents_append,
        countEvents_processTokens SSEEvent.isSession (fun _ => rfl) (fun _ => rfl) ltoks,
        countEvents_taskEvents SSEEvent.isSession (fun _ => rfl) (fun _ => rfl) task]
      rfl
    · simp only [countEvents, countEvents_append,
        countEvents_processTokens SSEEvent.isDone (fun _ => rfl) (fun _ => rfl) ltoks,
        countEvents_taskEvents SSEEvent.isDone (fun _ => rfl) (fun _ => rfl) task]
      rfl
    · rw [← List.cons_append, getLast?_append_singleton]

/-- Claim C8: when the model call fails, the legacy streaming generator ends
with a terminal error event and writes nothing to conversation memory, and
SimpleLangChainRAG.ask_question_streaming re-raises the failure (surfaced by
its callers as an error event/response) leaving the session memory
unmodified. -/
theorem c8_generation_failure_no_memory_write (sid question errMsg : String)
    (mem : List Exchange) (toks srcs : List String)
    (docs : List EnrichedDoc) (hdocs : docs.isEmpty = false) :
    (legacyStreamGenerate sid question mem toks (some errMsg) srcs).memory = mem ∧
    (legacyStreamGenerate sid question mem toks (some errMsg) srcs).events.getLast? =
      some (SSEEvent.error errMsg) ∧
    askQuestionStreaming docs mem question toks (some errMsg) = (Except.error errMsg, mem) := by
  refine ⟨rfl, ?_, ?_⟩
  · simp only [legacyStreamGenerate]
    rw [← List.cons_append, getLast?_append_singleton]
  · simp [askQuestionStreaming, hdocs]

/-- A sample enriched context document. -/
def sampleDoc : EnrichedDoc := ⟨"text", some "d0", "f.pdf", "h", 0⟩

/-- Witness for c8_generation_failure_no_memory_write at a concrete failing
generation with one retrieved document. -/
theorem c8_generation_failure_no_memory_write_witness :
    (legacyStreamGenerate "s" "q" [] ["tok"] (some "boom") ["f.pdf"]).memory = [] ∧
    (legacyStreamGenerate "s" "q" [] ["tok"] (some "boom") ["f.pdf"]).events.getLast? =
      some (SSEEvent.error "boom") ∧
    askQuestionStreaming [sampleDoc] [] "q" ["tok"] (some "boom") = (Except.error "boom", []) :=
  c8_generation_failure_no_memory_write "s" "q" "boom" [] ["tok"] ["f.pdf"] [sampleDoc] rfl

/-! ## History-aware query rewrite (legacy path) and what memory stores -/

/-- The apostrophe character used by the rewrite template. -/
def apos : String := String.singleton (Char.ofNat 39)

/-- The fixed lexicon of follow-up cue phrases. -/
def followUpIndicators : List String :=
  ["lanjut", "selanjutnya", "lebih detail", "contoh", "bagaimana",
   "jelaskan lebih", "detail", "itu", "tersebut", "tadi", "sebelumnya"]

/-- Python `s.lower()`: lower-case every character. -/
def strToLower (s : String) : String := ⟨s.toList.map Char.toLower⟩

/-- Python `pat in s`: substring containment. -/
def containsSub (s pat : String) : Bool := decide (pat.toList.IsInfix s.toList)

/-- `any(indicator in query.lower() for indicator in follow_up_indicators)`. -/
def isFollowUp (q : String) : Bool :=
  followUpIndicators.any (fun ind => containsSub (strToLower q) ind)

/-- The history-enhanced query of ask_question_legacy: when conversation
context is non-empty (history non-empty) and the question contains a
follow-up cue, prefix it with the previous question. -/
def enhancedQuery (history : List Exchange) (q : String) : String :=
  if history.isEmpty then q
  else if isFollowUp q then
    "Berdasarkan pertanyaan sebelumnya " ++ apos ++
      (((history.getLast?).map Exchange.question).getD "") ++ apos ++ ", " ++ q
  else q

/-- One run of the non-streaming body of ask_question_legacy: the query the
vector search was called with, the answer, the sources, and the conversation
memory afterwards. `search` maps a query string to the ranked vector index
results for it; `llmAnswer` is the model's reply. -/
structure LegacyAskRun where
  retrievalQuery : String
  answer : String
  sources : List String
  memory : List Exchange

/-- Non-streaming ask_question_legacy (api_langchain.py): retrieval runs on
the enhanced query; the zero-result branch stores the fixed answer; otherwise
the context records matching the returned doc_ids provide the sources and the
model answer is stored — in every branch add_exchange records the original
`q`, never the enhanced query. -/
def askQuestionLegacyRun (mem : List Exchange) (q : String)
    (search : String → List ChromaDoc) (store : List Chunk) (llmAnswer : String) :
    LegacyAskRun :=
  let eq2 := enhancedQuery mem q
  let results := search eq2
  if results.isEmpty then
    ⟨eq2, noDocsAnswer, [], addExchange mem ⟨q, noDocsAnswer, []⟩ MAX_CONVERSATION_HISTORY⟩
  else
    let docIds := results.filterMap ChromaDoc.docId
    let fullDocs := store.filter (fun c => docIds.contains c.doc_id)
    let sources := (fullDocs.map Chunk.filename).dedup
    ⟨eq2, llmAnswer, sources, addExchange mem ⟨q, llmAnswer, sources⟩ MAX_CONVERSATION_HISTORY⟩

theorem map_question_addExchange (mem : List Exchange) (ex : Exchange) :
    ((addExchange mem ex MAX_CONVERSATION_HISTORY).getLast?).map Exchange.question =
      some ex.question := by
  rw [addExchange_getLast mem ex MAX_CONVERSATION_HISTORY (by decide)]
  rfl

/-- Claim C10: the legacy path always appends the user's original question to
conversation memory, not the history-enhanced query; the enhanced query is
passed to retrieval only. At a concrete follow-up (cue word "itu") the
enhanced query genuinely differs from the stored question. -/
theorem c10_memory_stores_original_question (mem : List Exchange) (q : String)
    (search : String → List ChromaDoc) (store : List Chunk) (llmAnswer : String)
    (sid : String) (toks srcs : List String) :
    (askQuestionLegacyRun mem q search store llmAnswer).retrievalQuery = enhancedQuery mem q ∧
    ((askQuestionLegacyRun mem q search store llmAnswer).memory.getLast?).map Exchange.question =
      some q ∧
    ((legacyStreamGenerate sid q mem toks none srcs).memory.getLast?).map Exchange.question =
      some q ∧
    enhancedQuery [⟨"Apa itu RAG?", "jawaban", []⟩] "jelaskan itu" =
      "Berdasarkan pertanyaan sebelumnya " ++ apos ++ "Apa itu RAG?" ++ apos ++ ", jelaskan itu" ∧
    enhancedQuery [⟨"Apa itu RAG?", "jawaban", []⟩] "jelaskan itu" ≠ "jelaskan itu" := by
  refine ⟨?_, ?_, ?_, by decide, by decide⟩
  · unfold askQuestionLegacyRun
    by_cases h : (search (enhancedQuery mem q)).isEmpty = true
    · rw [if_pos h]
    · rw [if_neg h]
  · unfold askQuestionLegacyRun
    by_cases h : (search (enhancedQuery mem q)).isEmpty = true
    · rw [if_pos h]; exact map_question_addExchange mem _
    · rw [if_neg h]; exact map_question_addExchange mem _
  · simp only [legacyStreamGenerate]
    exact map_question_addExchange mem _

/-! ## Session management endpoints (history read / clear / export) -/

/-- The session-holding state of the service: the LangChain per-session
memories (SimpleLangChainRAG.memories) and the legacy SessionManager
sessions, both keyed by session id. -/
structure SysState where
  lcMemories : List (String × List Exchange)
  legacySessions : List (String × List Exchange)
deriving DecidableEq, Repr

/-- Lookup of a session id in one of the session maps. -/
def lookupSession (l : List (String × List Exchange)) (sid : String) :
    Option (List Exchange) :=
  (l.find? (fun p => p.1 = sid)).map Prod.snd

/-- SimpleLangChainRAG.get_memory: get OR CREATE the memory for a session id —
an unknown id silently gains a fresh empty memory. -/
def getMemory (st : SysState) (sid : String) : List Exchange × SysState :=
  match lookupSession st.lcMemories sid with
  | some mem => (mem, st)
  | none => ([], ⟨st.lcMemories ++ [(sid, [])], st.legacySessions⟩)

/-- GET /conversation/history/{session_id}: with the LangChain system
available it returns the (possibly just created) LangChain history; otherwise
it falls back to the legacy sessions and raises 404 when absent. -/
def getHistoryEndpoint (lcAvailable : Bool) (st : SysState) (sid : String) :
    Except HTTPError (List Exchange) × SysState :=
  if lcAvailable then
    let p := getMemory st sid
    (Except.ok p.1, p.2)
  else
    match lookupSession st.legacySessions sid with
    | some mem => (Except.ok mem, st)
    | none => (Except.error ⟨404, "Session not found"⟩, st)

/-- DELETE /conversation/history/{session_id}: clear the LangChain memory when
the id is known there (clear_conversation_history checks membership and does
not create); otherwise delete the legacy session; 404 when neither exists. -/
def clearHistoryEndpoint (lcAvailable : Bool) (st : SysState) (sid : String) :
    Except HTTPError Unit × SysState :=
  if lcAvailable && (lookupSession st.lcMemories sid).isSome then
    (Except.ok (),
     ⟨st.lcMemories.map (fun p => if p.1 = sid then (p.1, []) else p), st.legacySessions⟩)
  else
    match lookupSession st.legacySessions sid with
    | some _ =>
        (Except.ok (), ⟨st.lcMemories, st.legacySessions.filter (fun p => !(p.1 = sid))⟩)
    | none => (Except.error ⟨404, "Session not found"⟩, st)

/-- GET /conversation/export/{session_id}: export_conversation calls
get_conversation_history, whose get_memory CREATES an empty memory for an
unknown id; an empty history falls through to the legacy sessions, and the
HTTPException 404 raised there is caught by the endpoint's blanket
`except Exception` and rewrapped as a 500. -/
def exportEndpoint (lcAvailable : Bool) (st : SysState) (sid : String) :
    Except HTTPError (List Exchange) × SysState :=
  if lcAvailable then
    let p := getMemory st sid
    if !p.1.isEmpty then (Except.ok p.1, p.2)
    else
      match lookupSession p.2.legacySessions sid with
      | some mem => (Except.ok mem, p.2)
      | none => (Except.error ⟨500, "Export failed: 404: Session not found"⟩, p.2)
  else
    match lookupSession st.legacySessions sid with
    | some mem => (Except.ok mem, st)
    | none => (Except.error ⟨500, "Export failed: 404: Session not found"⟩, st)

/-- Claim C4 counterexample: with the LangChain system available (the normal
configuration), reading the history of an unknown session id returns a
success with an empty history instead of a not-found condition, and silently
creates the session: the state afterwards holds the new session id. -/
theorem c4_counterexample :
    (getHistoryEndpoint true ⟨[], []⟩ "s").1 = Except.ok [] ∧
    (getHistoryEndpoint true ⟨[], []⟩ "s").2 = ⟨[("s", [])], []⟩ ∧
    lookupSession (getHistoryEndpoint true ⟨[], []⟩ "s").2.lcMemories "s" = some [] := by
  refine ⟨rfl, rfl, rfl⟩

/-- Claim C4 (amended): for an unknown session id, clear-history surfaces a
not-found condition and never creates a session; but with the LangChain
system available, read-history silently creates an empty session and returns
it as a success, and export silently creates the empty LangChain session and
then surfaces its own not-found as a 500 (the blanket except rewraps the
404); with LangChain unavailable, read surfaces 404 and export the rewrapped
500, neither creating a session. -/
theorem c4_amended_session_not_found (st : SysState) (sid : String)
    (h1 : lookupSession st.lcMemories sid = none)
    (h2 : lookupSession st.legacySessions sid = none) :
    clearHistoryEndpoint true st sid = (Except.error ⟨404, "Session not found"⟩, st) ∧
    clearHistoryEndpoint false st sid = (Except.error ⟨404, "Session not found"⟩, st) ∧
    getHistoryEndpoint false st sid = (Except.error ⟨404, "Session not found"⟩, st) ∧
    getHistoryEndpoint true st sid =
      (Except.ok [], ⟨st.lcMemories ++ [(sid, [])], st.legacySessions⟩) ∧
    exportEndpoint false st sid =
      (Except.error ⟨500, "Export failed: 404: Session not found"⟩, st) ∧
    exportEndpoint true st sid =
      (Except.error ⟨500, "Export failed: 404: Session not found"⟩,
       ⟨st.lcMemories ++ [(sid, [])], st.legacySessions⟩) := by
  refine ⟨?_, ?_, ?_, ?_, ?_, ?_⟩
  · unfold clearHistoryEndpoint
    rw [h1]
    simp only [Option.isSome_none, Bool.and_false]
    rw [if_neg (by simp), h2]
  · unfold clearHistoryEndpoint
    rw [h1]
    simp only [Option.isSome_none, Bool.and_false]
    rw [if_neg (by simp), h2]
  · unfold getHistoryEndpoint
    rw [if_neg (by simp), h2]
  · unfold getHistoryEndpoint getMemory
    rw [if_pos rfl, h1]
  · unfold exportEndpoint
    rw [if_neg (by simp), h2]
  · unfold exportEndpoint getMemory
    rw [if_pos rfl, h1]
    simp only [List.isEmpty_nil, Bool.not_true]
    rw [if_neg (by simp), h2]

/-- Witness for c4_amended_session_not_found at the empty state and the
session id "s". -/
theorem c4_amended_session_not_found_witness :
    clearHistoryEndpoint true ⟨[], []⟩ "s" =
      (Except.error ⟨404, "Session not found"⟩, ⟨[], []⟩) ∧
    clearHistoryEndpoint false ⟨[], []⟩ "s" =
      (Except.error ⟨404, "Session not found"⟩, ⟨[], []⟩) ∧
    getHistoryEndpoint false ⟨[], []⟩ "s" =
      (Except.error ⟨404, "Session not found"⟩, ⟨[], []⟩) ∧
    getHistoryEndpoint true ⟨[], []⟩ "s" = (Except.ok [], ⟨[("s", [])], []⟩) ∧
    exportEndpoint false ⟨[], []⟩ "s" =
      (Except.error ⟨500, "Export failed: 404: Session not found"⟩, ⟨[], []⟩) ∧
    exportEndpoint true ⟨[], []⟩ "s" =
      (Except.error ⟨500, "Export failed: 404: Session not found"⟩, ⟨[("s", [])], []⟩) :=
  c4_amended_session_not_found ⟨[], []⟩ "s" rfl rfl

end TanyaMail
